import Mathlib

set_option maxRecDepth 16000

/-
Verification of the streaming response normalization layer of
`src/app/api/chat/route.js` (the `createParser` closure and the `POST`
handler).  Text is modelled at the character level as `List Char`: the
`TextDecoder` in streaming mode reassembles multi-byte UTF-8 sequences
split across chunks, so a split of the byte stream corresponds to a split
of the decoded character stream.  JavaScript exceptions are modelled with
`Option`/`Except`.
-/

namespace StreamCore

/-- Coerces a Lean string literal to the character-list representation used
throughout this development. -/
def sL (s : String) : List Char := s.toList

/-- Whitespace set of JavaScript `String.prototype.trim` (ASCII whitespace
plus the Unicode space characters). -/
def jsWs (c : Char) : Bool :=
  c = ' ' || c = '\t' || c = '\n' || c = '\x0b' || c = '\x0c' || c = '\r' ||
  c.toNat = 0xa0 || c.toNat = 0x1680 ||
  (0x2000 ≤ c.toNat && c.toNat ≤ 0x200a) ||
  c.toNat = 0x2028 || c.toNat = 0x2029 || c.toNat = 0x202f ||
  c.toNat = 0x205f || c.toNat = 0x3000 || c.toNat = 0xfeff

/-- Model of `line.trim()` from route.js line 42. -/
def trimL (cs : List Char) : List Char :=
  ((cs.dropWhile jsWs).reverse.dropWhile jsWs).reverse

/-- Model of `String.prototype.startsWith` on character lists
(route.js line 46). -/
def beginsWith : List Char → List Char → Bool
  | [], _ => true
  | _ :: _, [] => false
  | p :: ps, c :: cs => p = c && beginsWith ps cs

/-- One character of the newline split: a newline opens a fresh complete
line; any other character is prepended to the first complete line, or to
the trailing partial line when no complete line exists yet. -/
def lineStep (c : Char) (r : List (List Char) × List Char) :
    List (List Char) × List Char :=
  if c = '\n' then ([] :: r.1, r.2)
  else
    match r.1 with
    | [] => (r.1, c :: r.2)
    | l :: ls => ((c :: l) :: ls, r.2)

/-- Model of `buffer.split("\n")` followed by `buffer = lines.pop() || ""`
(route.js lines 36-39): the pair of the complete lines and the trailing
partial line that becomes the new buffer. -/
def lineSplit : List Char → List (List Char) × List Char
  | [] => ([], [])
  | c :: cs => lineStep c (lineSplit cs)

/-- JSON values as produced by `JSON.parse`.  Number tokens are kept
verbatim (no claim depends on numeric content). -/
inductive Json where
  | null : Json
  | jbool : Bool → Json
  | jnum : List Char → Json
  | jstr : List Char → Json
  | jarr : List Json → Json
  | jobj : List (List Char × Json) → Json

/-- JSON insignificant whitespace (ECMA-404). -/
def isJsonWs (c : Char) : Bool :=
  c = ' ' || c = '\t' || c = '\n' || c = '\r'

/-- Drops leading JSON whitespace. -/
def skipWs (cs : List Char) : List Char := cs.dropWhile isJsonWs

/-- Value of one hexadecimal digit. -/
def hexVal (c : Char) : Option Nat :=
  if '0' ≤ c ∧ c ≤ '9' then some (c.toNat - 48)
  else if 'a' ≤ c ∧ c ≤ 'f' then some (c.toNat - 87)
  else if 'A' ≤ c ∧ c ≤ 'F' then some (c.toNat - 55)
  else none

/-- Reads four hexadecimal digits of a `\u` escape. -/
def parseHex4 : List Char → Option (Nat × List Char)
  | a :: b :: c :: d :: rest =>
    match hexVal a, hexVal b, hexVal c, hexVal d with
    | some x, some y, some z, some w =>
      some (((x * 16 + y) * 16 + z) * 16 + w, rest)
    | _, _, _, _ => none
  | _ => none

/-- Body of a JSON string after the opening quote; returns the decoded
content and the input past the closing quote.  Lone surrogates from `\u`
escapes are mapped to the default character (a harmless deviation: no
claim involves them). -/
def parseStrBody : Nat → List Char → Option (List Char × List Char)
  | 0, _ => none
  | Nat.succ f, cs =>
    match cs with
    | [] => none
    | '"' :: rest => some ([], rest)
    | '\\' :: '"' :: r => (parseStrBody f r).map (fun p => ('"' :: p.1, p.2))
    | '\\' :: '\\' :: r => (parseStrBody f r).map (fun p => ('\\' :: p.1, p.2))
    | '\\' :: '/' :: r => (parseStrBody f r).map (fun p => ('/' :: p.1, p.2))
    | '\\' :: 'b' :: r => (parseStrBody f r).map (fun p => ('\x08' :: p.1, p.2))
    | '\\' :: 'f' :: r => (parseStrBody f r).map (fun p => ('\x0c' :: p.1, p.2))
    | '\\' :: 'n' :: r => (parseStrBody f r).map (fun p => ('\n' :: p.1, p.2))
    | '\\' :: 'r' :: r => (parseStrBody f r).map (fun p => ('\r' :: p.1, p.2))
    | '\\' :: 't' :: r => (parseStrBody f r).map (fun p => ('\t' :: p.1, p.2))
    | '\\' :: 'u' :: r =>
      match parseHex4 r with
      | some (n, r2) =>
        (parseStrBody f r2).map (fun p => (Char.ofNat n :: p.1, p.2))
      | none => none
    | '\\' :: _ => none
    | c :: rest =>
      if c.toNat < 32 then none
      else (parseStrBody f rest).map (fun p => (c :: p.1, p.2))

/-- Splits off a maximal run of decimal digits. -/
def decDigits (cs : List Char) : List Char × List Char :=
  (cs.takeWhile Char.isDigit, cs.dropWhile Char.isDigit)

/-- Integer part of a JSON number (leading zeros are rejected, as in
`JSON.parse`). -/
def parseIntPart : List Char → Option (List Char × List Char)
  | '0' :: r => some (['0'], r)
  | c :: r =>
    if c.isDigit then
      let d := decDigits r
      some (c :: d.1, d.2)
    else none
  | [] => none

/-- Optional fractional part of a JSON number. -/
def parseFracPart : List Char → Option (List Char × List Char)
  | '.' :: r =>
    let d := decDigits r
    if d.1 = [] then none else some ('.' :: d.1, d.2)
  | cs => some ([], cs)

/-- Optional exponent part of a JSON number. -/
def parseExpPart : List Char → Option (List Char × List Char)
  | e :: r =>
    if e = 'e' ∨ e = 'E' then
      match r with
      | s :: r2 =>
        if s = '+' ∨ s = '-' then
          let d := decDigits r2
          if d.1 = [] then none else some (e :: s :: d.1, d.2)
        else
          let d := decDigits r
          if d.1 = [] then none else some (e :: d.1, d.2)
      | [] => none
    else some ([], e :: r)
  | [] => some ([], [])

/-- JSON number token (kept verbatim) and the remaining input. -/
def parseNumber (cs : List Char) : Option (List Char × List Char) :=
  let p := match cs with
    | '-' :: r => ((['-'] : List Char), r)
    | _ => (([] : List Char), cs)
  match parseIntPart p.2 with
  | none => none
  | some (ip, cs2) =>
    match parseFracPart cs2 with
    | none => none
    | some (fp, cs3) =>
      match parseExpPart cs3 with
      | none => none
      | some (ep, cs4) => some (p.1 ++ ip ++ fp ++ ep, cs4)

mutual

/-- Recursive-descent JSON value, fuelled so that all recursion is
structural (hence kernel-evaluable). -/
def parseValue : Nat → List Char → Option (Json × List Char)
  | 0, _ => none
  | Nat.succ f, cs0 =>
    match skipWs cs0 with
    | 'n' :: 'u' :: 'l' :: 'l' :: r => some (Json.null, r)
    | 't' :: 'r' :: 'u' :: 'e' :: r => some (Json.jbool true, r)
    | 'f' :: 'a' :: 'l' :: 's' :: 'e' :: r => some (Json.jbool false, r)
    | '"' :: r =>
      match parseStrBody (r.length + 1) r with
      | some (s, r2) => some (Json.jstr s, r2)
      | none => none
    | '[' :: r =>
      match skipWs r with
      | ']' :: r2 => some (Json.jarr [], r2)
      | r1 =>
        match parseElems f r1 with
        | some (xs, r2) => some (Json.jarr xs, r2)
        | none => none
    | '{' :: r =>
      match skipWs r with
      | '}' :: r2 => some (Json.jobj [], r2)
      | r1 =>
        match parseMembers f r1 with
        | some (ms, r2) => some (Json.jobj ms, r2)
        | none => none
    | cs =>
      match parseNumber cs with
      | some (tok, r) => some (Json.jnum tok, r)
      | none => none

/-- Comma-separated array elements up to the closing bracket. -/
def parseElems : Nat → List Char → Option (List Json × List Char)
  | 0, _ => none
  | Nat.succ f, cs =>
    match parseValue f cs with
    | none => none
    | some (v, r) =>
      match skipWs r with
      | ',' :: r2 =>
        match parseElems f r2 with
        | some (vs, r3) => some (v :: vs, r3)
        | none => none
      | ']' :: r2 => some ([v], r2)
      | _ => none

/-- Comma-separated object members up to the closing brace. -/
def parseMembers : Nat → List Char → Option (List (List Char × Json) × List Char)
  | 0, _ => none
  | Nat.succ f, cs =>
    match skipWs cs with
    | '"' :: r =>
      match parseStrBody (r.length + 1) r with
      | none => none
      | some (k, r1) =>
        match skipWs r1 with
        | ':' :: r2 =>
          match parseValue f r2 with
          | none => none
          | some (v, r3) =>
            match skipWs r3 with
            | ',' :: r4 =>
              match parseMembers f r4 with
              | some (ms, r5) => some ((k, v) :: ms, r5)
              | none => none
            | '}' :: r4 => some ([(k, v)], r4)
            | _ => none
        | _ => none
    | _ => none

end

/-- Model of `JSON.parse` (route.js line 48): parse one value surrounded by
whitespace, requiring the whole input to be consumed; `none` models a
thrown `SyntaxError`. -/
def jsonParse (cs : List Char) : Option Json :=
  match parseValue (2 * cs.length + 2) cs with
  | some (v, r) => if skipWs r = [] then some v else none
  | none => none

example : jsonParse (sL ("\x7b\"response\":\"Hi\"\x7d")) =
    some (Json.jobj [(sL ("response"), Json.jstr (sL ("Hi")))]) := rfl

example : jsonParse (sL ("\x7bnot valid json")) = none := rfl

example : jsonParse (sL ("null")) = some Json.null := rfl

example : jsonParse (sL ("\x7b\"choices\":[\x7b\"delta\":\x7b\"content\":\"Hi\"\x7d\x7d]\x7d")) =
    some (Json.jobj [(sL ("choices"), Json.jarr [Json.jobj
      [(sL ("delta"), Json.jobj [(sL ("content"), Json.jstr (sL ("Hi")))])]])]) := rfl

/-- Object member lookup; with duplicate keys `JSON.parse` keeps the last
binding, so the lookup prefers later entries. -/
def objGet : List (List Char × Json) → List Char → Option Json
  | [], _ => none
  | (k2, v) :: rest, k =>
    match objGet rest k with
    | some r => some r
    | none => if k2 = k then some v else none

/-- Digit-string to number, for array index keys. -/
def digitsToNat (k : List Char) : Nat :=
  k.foldl (fun a c => a * 10 + (c.toNat - 48)) 0

/-- Canonical numeric property keys (JS array index strings). -/
def asIndex (k : List Char) : Option Nat :=
  if k ≠ [] ∧ k.all Char.isDigit ∧ (k = ['0'] ∨ k.head? ≠ some '0') then
    some (digitsToNat k)
  else none

/-- JavaScript property read `v[k]` on a non-`null` JSON value: objects by
key (last duplicate wins), arrays and strings by numeric index or
`length`, anything else `undefined` (`none`). -/
def getProp : Json → List Char → Option Json
  | Json.jobj fs, k => objGet fs k
  | Json.jarr xs, k =>
    if k = sL ("length") then some (Json.jnum (sL (Nat.repr xs.length)))
    else
      match asIndex k with
      | some i => xs.get? i
      | none => none
  | Json.jstr s, k =>
    if k = sL ("length") then some (Json.jnum (sL (Nat.repr s.length)))
    else
      match asIndex k with
      | some i => (s.get? i).map (fun c => Json.jstr [c])
      | none => none
  | _, _ => none

/-- Optional-chaining property read `a?.k`: an `undefined` or `null`
receiver yields `undefined` instead of throwing. -/
def optProp : Option Json → List Char → Option Json
  | none, _ => none
  | some Json.null, _ => none
  | some v, k => getProp v k

/-- Optional-chaining index read `a?.[i]`. -/
def optIdx : Option Json → Nat → Option Json
  | none, _ => none
  | some Json.null, _ => none
  | some v, i => getProp v (sL (Nat.repr i))

/-- Zero test for a JSON number token: every mantissa digit is `0`. -/
def numZero (t : List Char) : Bool :=
  (t.takeWhile (fun c => c ≠ 'e' ∧ c ≠ 'E')).all
    (fun c => c = '0' ∨ c = '.' ∨ c = '-')

/-- JavaScript truthiness of a JSON value. -/
def truthy : Json → Bool
  | Json.null => false
  | Json.jbool b => b
  | Json.jnum t => !(numZero t)
  | Json.jstr s => !(s.isEmpty)
  | Json.jarr _ => true
  | Json.jobj _ => true

/-- Truthiness extended to possibly-`undefined` values. -/
def truthyO : Option Json → Bool
  | none => false
  | some v => truthy v

/-- JavaScript `x || y` over possibly-`undefined` values. -/
def orJs (x y : Option Json) : Option Json := if truthyO x then x else y

/-- Fuel-based model of JavaScript `ToString` as applied by
`TextEncoder.encode`.  Number tokens are rendered verbatim rather than
through float formatting, a deviation no claim depends on; callers pass
fuel exceeding the value's depth, keeping the recursion structural. -/
def jsToStrF : Nat → Json → List Char
  | 0, _ => []
  | Nat.succ f, j =>
    match j with
    | Json.null => sL ("null")
    | Json.jbool true => sL ("true")
    | Json.jbool false => sL ("false")
    | Json.jnum t => t
    | Json.jstr s => s
    | Json.jobj _ => sL ("[object Object]")
    | Json.jarr xs =>
      List.intercalate [','] (xs.map (fun x =>
        match x with
        | Json.null => []
        | v => jsToStrF f v))

/-- Model of
`data.choices?.[0]?.delta?.content || data.message?.content || data.response || ""`
followed by the `if (content)` guard input (route.js lines 50-53).  The
leading `data.choices`, `data.message` and `data.response` reads are plain
member accesses, so a `null` payload throws a `TypeError`
(`Except.error`), which the surrounding `catch` absorbs. -/
def contentOf : Json → Except Unit Json
  | Json.null => Except.error ()
  | data =>
    let a := optProp (optProp (optIdx (getProp data (sL ("choices"))) 0)
      (sL ("delta"))) (sL ("content"))
    let b := optProp (getProp data (sL ("message"))) (sL ("content"))
    let c := getProp data (sL ("response"))
    Except.ok ((orJs a (orJs b (orJs c (some (Json.jstr []))))).getD (Json.jstr []))

/-- Deltas enqueued for one `data: ` payload (route.js lines 47-57): the
`try`/`catch` around `JSON.parse` and the extraction is modelled by the
`none`/`error` branches, which produce no delta.  The depth of any value
parsed from the payload is below the payload's length, so that length
bounds the `ToString` fuel. -/
def lineDeltas (payload : List Char) : List (List Char) :=
  match jsonParse payload with
  | none => []
  | some data =>
    match contentOf data with
    | Except.error _ => []
    | Except.ok content =>
      if truthy content then [jsToStrF (payload.length + 1) content] else []

/-- The terminal sentinel line (route.js line 44). -/
def doneL : List Char := sL ("data: [DONE]")

/-- The SSE data prefix (route.js line 46). -/
def dataPfx : List Char := sL ("data: ")

/-- Output of one iteration of the line loop (route.js lines 41-59),
leaving aside the early `return` on the sentinel. -/
def lineOut (l : List Char) : List (List Char) :=
  let t := trimL l
  if t = [] then []
  else if t = doneL then []
  else if beginsWith dataPfx t then lineDeltas (t.drop 6)
  else []

/-- The line loop of route.js lines 41-59 over the complete lines of one
parse call, including the early `return` on the sentinel line. -/
def processLines : List (List Char) → List (List Char)
  | [] => []
  | l :: ls =>
    let t := trimL l
    if t = [] then processLines ls
    else if t = doneL then []
    else if beginsWith dataPfx t then lineDeltas (t.drop 6) ++ processLines ls
    else processLines ls

/-- One call of the `parse` closure returned by `createParser`
(route.js lines 34-60): append the decoded chunk to the buffer, split on
newline, keep the last partial line as the new buffer, process the
complete lines; returns the new buffer and the deltas enqueued during the
call. -/
def parseChunk (buf chunk : List Char) : List Char × List (List Char) :=
  let r := lineSplit (buf ++ chunk)
  (r.2, processLines r.1)

/-- Feeds a sequence of chunks through one parser session, threading the
buffer and concatenating the enqueued deltas. -/
def feed (buf : List Char) : List (List Char) → List Char × List (List Char)
  | [] => (buf, [])
  | c :: cs =>
    let r1 := parseChunk buf c
    let r2 := feed r1.1 cs
    (r2.1, r1.2 ++ r2.2)

/-- A fresh parser session (`buffer = ""`, route.js line 32) fed a chunk
sequence. -/
def feedAll (chunks : List (List Char)) : List Char × List (List Char) :=
  feed [] chunks

example : feedAll [sL ("data: \x7b\"response\":\"Hi\"\x7d\n")] = ([], [sL ("Hi")]) := by
  decide

example : feedAll [sL ("data: \x7b\"resp"), sL ("onse\":\"Hi\"\x7d\n")] =
    ([], [sL ("Hi")]) := by decide

example : feedAll [sL ("data: [DONE]\n"), sL ("data: \x7b\"response\":\"Hi\"\x7d\n")] =
    ([], [sL ("Hi")]) := by decide

example : lineDeltas (sL ("null")) = [] := by decide

example : lineDeltas (sL ("\x7b\"role\":\"assistant\"\x7d")) = [] := by decide

/-- The backend selected by `NEXT_PUBLIC_DEFAULT_PROVIDER`
(route.js line 142). -/
inductive Provider where
  | ollama : Provider
  | cloudflare : Provider

/-- The upstream `fetch` outcome as observed by `POST` after the request
(route.js lines 166-176 and 205-218): the success flag, the body text read
on failure, the body chunk sequence used when streaming, and the parsed
JSON body used on the non-streaming path (`none` models a body that
`response.json()` rejects). -/
structure UpstreamResponse where
  ok : Bool
  bodyText : List Char
  bodyChunks : List (List Char)
  bodyJson : Option Json

/-- The value returned by the `POST` handler: a streaming response
carrying the enqueued deltas, or a JSON response with a status code. -/
inductive RouteResult where
  | streamed : List (List Char) → RouteResult
  | jsonRes : Json → Nat → RouteResult

/-- The `error` field of the catch-all response: `error.message || "An
unexpected error occurred"` (route.js line 247). -/
def errMessage (m : List Char) : List Char :=
  if m = [] then sL ("An unexpected error occurred") else m

/-- The `details` field of the catch-all response: `error.toString()`
(route.js line 248), which for an `Error` with message `m` is
`"Error: " ++ m` (or `"Error"` when the message is empty). -/
def errToString (m : List Char) : List Char :=
  if m = [] then sL ("Error") else sL ("Error: ") ++ m

/-- The `NextResponse.json({error, details}, {status: 500})` built by the
catch block of `POST` (route.js lines 245-251) for a thrown `Error` whose
message is `m`. -/
def errorResult (m : List Char) : RouteResult :=
  RouteResult.jsonRes (Json.jobj
    [(sL ("error"), Json.jstr (errMessage m)),
     (sL ("details"), Json.jstr (errToString m))]) 500

/-- Strict (non-optional) property read used on the non-streaming path:
reading a property of `undefined` or `null` throws a `TypeError`. -/
def strictProp : Option Json → List Char → Except Unit (Option Json)
  | none, _ => Except.error ()
  | some Json.null, _ => Except.error ()
  | some v, k => Except.ok (getProp v k)

/-- Strict index read `v[0]` on the non-streaming Cloudflare path. -/
def strictIdx : Option Json → Nat → Except Unit (Option Json)
  | none, _ => Except.error ()
  | some Json.null, _ => Except.error ()
  | some v, i => Except.ok (getProp v (sL (Nat.repr i)))

/-- Non-streaming content extraction: `data.message.content` for Ollama
(route.js line 199) and `data.choices[0].message.content` for Cloudflare
(route.js line 241). -/
def nonStreamContent : Provider → Json → Except Unit (Option Json)
  | Provider.ollama, j =>
    strictProp (some j) (sL ("message")) >>= fun m =>
    strictProp m (sL ("content"))
  | Provider.cloudflare, j =>
    strictProp (some j) (sL ("choices")) >>= fun cs =>
    strictIdx cs 0 >>= fun c0 =>
    strictProp c0 (sL ("message")) >>= fun m =>
    strictProp m (sL ("content"))

/-- Placeholder for the runtime-generated message of a `SyntaxError` or
`TypeError` thrown on the non-streaming success path; the exact text is
runtime-dependent and no claim depends on it. -/
def runtimeErrMsg : List Char := sL ("runtime error")

/-- Model of the `POST` handler from the upstream `fetch` result onward
(route.js lines 165-252), for the provider branch selected by the
environment.  `!response.ok` raises `Error("<provider> API error: " +
body)` (lines 178-181 and 220-223), which the catch block turns into the
JSON error response; a streaming response pipes the body through
`createParser` (lines 184-195 and 226-237); the non-streaming path returns
the extracted content with status 200 (lines 198-199 and 240-241). -/
def handlePOST (p : Provider) (streamFlag : Bool) (u : UpstreamResponse) :
    RouteResult :=
  if u.ok = false then
    errorResult ((match p with
      | Provider.ollama => sL ("Ollama API error: ")
      | Provider.cloudflare => sL ("Cloudflare API error: ")) ++ u.bodyText)
  else if streamFlag then
    RouteResult.streamed (feedAll u.bodyChunks).2
  else
    match u.bodyJson with
    | none => errorResult runtimeErrMsg
    | some j =>
      match nonStreamContent p j with
      | Except.error _ => errorResult runtimeErrMsg
      | Except.ok v =>
        RouteResult.jsonRes (Json.jobj
          (match v with
           | none => []
           | some c => [(sL ("content"), c)])) 200

/-- Concatenation of a list of lists. -/
def catL {α : Type} : List (List α) → List α
  | [] => []
  | x :: xs => x ++ catL xs

theorem doneL_ne_nil : doneL ≠ [] := by decide

theorem lineStep_buf (c : Char) (r : List (List Char) × List Char) :
    (lineStep c r).2 = r.2 ∨ (c ≠ '\n' ∧ (lineStep c r).2 = c :: r.2) := by
  unfold lineStep
  by_cases hc : c = '\n'
  · left
    simp [hc]
  · cases h1 : r.1 <;> simp [hc, h1]

theorem lineSplit_noNl {s : List Char} (h : '\n' ∉ s) : lineSplit s = ([], s) := by
  induction s with
  | nil => rfl
  | cons c cs ih =>
    simp only [List.mem_cons, not_or] at h
    have hc : ¬ c = '\n' := fun hh => h.1 hh.symm
    show lineStep c (lineSplit cs) = ([], c :: cs)
    rw [ih h.2]
    simp [lineStep, hc]

theorem lineSplit_buf_noNl (s : List Char) : '\n' ∉ (lineSplit s).2 := by
  induction s with
  | nil => simp [lineSplit]
  | cons c cs ih =>
    show '\n' ∉ (lineStep c (lineSplit cs)).2
    rcases lineStep_buf c (lineSplit cs) with h | h
    · rw [h]
      exact ih
    · rw [h.2]
      intro hm
      rcases List.mem_cons.mp hm with he | he
      · exact h.1 he.symm
      · exact ih he

theorem lineSplit_append (a b : List Char) :
    lineSplit (a ++ b) =
      ((lineSplit a).1 ++ (lineSplit ((lineSplit a).2 ++ b)).1,
        (lineSplit ((lineSplit a).2 ++ b)).2) := by
  induction a with
  | nil => simp [lineSplit]
  | cons c cs ih =>
    show lineStep c (lineSplit (cs ++ b)) = _
    rw [ih]
    by_cases hc : c = '\n'
    · subst hc
      simp [lineSplit, lineStep]
    · cases h1 : (lineSplit cs).1 with
      | cons l ls => simp [lineSplit, lineStep, hc, h1]
      | nil => simp [lineSplit, lineStep, hc, h1]


theorem processLines_cons_ne (l : List Char) (ls : List (List Char))
    (h : trimL l ≠ doneL) :
    processLines (l :: ls) = lineOut l ++ processLines ls := by
  simp only [processLines, lineOut]
  by_cases h1 : trimL l = []
  · simp [h1]
  · by_cases hb : beginsWith dataPfx (trimL l) = true
    · simp [h1, h, hb]
    · simp [h1, h, hb]

theorem processLines_append (ls1 ls2 : List (List Char))
    (h : ∀ l ∈ ls1, trimL l ≠ doneL) :
    processLines (ls1 ++ ls2) = processLines ls1 ++ processLines ls2 := by
  induction ls1 with
  | nil => simp [processLines]
  | cons l ls ih =>
    have hl : trimL l ≠ doneL := h l (by simp)
    have hrest : ∀ x ∈ ls, trimL x ≠ doneL :=
      fun x hx => h x (List.mem_cons_of_mem _ hx)
    rw [List.cons_append, processLines_cons_ne l (ls ++ ls2) hl, ih hrest,
      processLines_cons_ne l ls hl, List.append_assoc]

theorem processLines_stop (ls1 ls2 : List (List Char)) (d : List Char)
    (h : ∀ l ∈ ls1, trimL l ≠ doneL) (hd : trimL d = doneL) :
    processLines (ls1 ++ d :: ls2) = processLines ls1 := by
  induction ls1 with
  | nil =>
    show processLines (d :: ls2) = []
    simp only [processLines, hd]
    simp [doneL_ne_nil]
  | cons l ls ih =>
    have hl : trimL l ≠ doneL := h l (by simp)
    have hrest : ∀ x ∈ ls, trimL x ≠ doneL :=
      fun x hx => h x (List.mem_cons_of_mem _ hx)
    rw [List.cons_append, processLines_cons_ne l (ls ++ d :: ls2) hl, ih hrest,
      processLines_cons_ne l ls hl]

theorem processLines_eq_catL (ls : List (List Char))
    (h : ∀ l ∈ ls, trimL l ≠ doneL) :
    processLines ls = catL (ls.map lineOut) := by
  induction ls with
  | nil => rfl
  | cons l ls ih =>
    rw [processLines_cons_ne l ls (h l (by simp)),
      ih (fun x hx => h x (List.mem_cons_of_mem _ hx))]
    rfl

theorem dropLast_append_cons {α : Type} (xs : List α) (y : α) (ys : List α) :
    (xs ++ y :: ys).dropLast = xs ++ (y :: ys).dropLast := by
  induction xs with
  | nil => rfl
  | cons x xs' ih =>
    cases xs' with
    | nil => rfl
    | cons x2 xs2 =>
      show x :: ((x2 :: xs2 ++ y :: ys).dropLast) = _
      rw [ih]
      rfl

theorem feed_closed (cs : List (List Char)) : ∀ (buf : List Char), '\n' ∉ buf →
    (∀ l ∈ (lineSplit (buf ++ catL cs)).1.dropLast, trimL l ≠ doneL) →
    feed buf cs =
      ((lineSplit (buf ++ catL cs)).2,
        processLines (lineSplit (buf ++ catL cs)).1) := by
  induction cs with
  | nil =>
    intro buf hb _
    rw [show catL ([] : List (List Char)) = [] from rfl, List.append_nil,
      lineSplit_noNl hb]
    rfl
  | cons c cs ih =>
    intro buf hb hdone
    have hb1 : '\n' ∉ (lineSplit (buf ++ c)).2 := lineSplit_buf_noNl _
    have hassoc : buf ++ catL (c :: cs) = (buf ++ c) ++ catL cs := by
      show buf ++ (c ++ catL cs) = _
      rw [List.append_assoc]
    rw [hassoc] at hdone ⊢
    have key := lineSplit_append (buf ++ c) (catL cs)
    rw [key] at hdone ⊢
    dsimp only at hdone ⊢
    show ((feed (lineSplit (buf ++ c)).2 cs).1,
        processLines (lineSplit (buf ++ c)).1 ++
          (feed (lineSplit (buf ++ c)).2 cs).2) = _
    cases hM : (lineSplit ((lineSplit (buf ++ c)).2 ++ catL cs)).1 with
    | nil =>
      have IH := ih (lineSplit (buf ++ c)).2 hb1 (by rw [hM]; intro l hl; simp at hl)
      rw [IH, hM]
      simp [processLines]
    | cons m ms =>
      rw [hM] at hdone
      rw [dropLast_append_cons] at hdone
      have hL1 : ∀ l ∈ (lineSplit (buf ++ c)).1, trimL l ≠ doneL :=
        fun l hl => hdone l (List.mem_append_left _ hl)
      have hM2 : ∀ l ∈ (m :: ms).dropLast, trimL l ≠ doneL :=
        fun l hl => hdone l (List.mem_append_right _ hl)
      have IH := ih (lineSplit (buf ++ c)).2 hb1 (by rw [hM]; exact hM2)
      rw [IH, hM, processLines_append _ _ hL1]

theorem lineSplit_line_cons (l : List Char) (h : '\n' ∉ l) (rest : List Char) :
    lineSplit (l ++ '\n' :: rest) =
      (l :: (lineSplit rest).1, (lineSplit rest).2) := by
  induction l with
  | nil => rfl
  | cons c cs ih =>
    simp only [List.mem_cons, not_or] at h
    have hc : ¬ c = '\n' := fun hh => h.1 hh.symm
    show lineStep c (lineSplit (cs ++ '\n' :: rest)) = _
    rw [ih h.2]
    simp [lineStep, hc]

theorem processLines_cons_done (l : List Char) (ls : List (List Char))
    (hd : trimL l = doneL) : processLines (l :: ls) = [] := by
  simp only [processLines, hd]
  simp [doneL_ne_nil]

theorem lineOut_no_data_pfx (l : List Char)
    (h : beginsWith dataPfx (trimL l) = false) : lineOut l = [] := by
  simp only [lineOut]
  by_cases h1 : trimL l = []
  · simp [h1]
  · by_cases h2 : trimL l = doneL
    · simp [h1, h2]
    · simp [h1, h2, h]


/-- C1: Chunk-boundary invariance: for a stream whose complete lines
contain the terminal sentinel at most as the final complete line (the
sentinel-last condition of a valid SSE frame sequence), splitting the
character stream at arbitrary offsets and feeding the chunks through the
parser yields the same buffer and the same ordered delta sequence as
feeding the whole stream as a single chunk. -/
theorem chunk_boundary_invariance (chunks : List (List Char))
    (h : ∀ l ∈ (lineSplit (catL chunks)).1.dropLast, trimL l ≠ doneL) :
    feedAll chunks = feedAll [catL chunks] := by
  have e1 : ([] : List Char) ++ catL chunks = catL chunks := List.nil_append _
  have e2 : ([] : List Char) ++ catL [catL chunks] = catL chunks := by
    show ([] : List Char) ++ (catL chunks ++ catL ([] : List (List Char))) = _
    simp [catL]
  have h1 := feed_closed chunks [] (by simp) (by rw [e1]; exact h)
  have h2 := feed_closed [catL chunks] [] (by simp) (by rw [e2]; exact h)
  rw [e1] at h1
  rw [e2] at h2
  show feed [] chunks = feed [] [catL chunks]
  rw [h1, h2]

theorem chunk_boundary_invariance_witness :
    (∀ l ∈ (lineSplit (catL [sL ("data: \x7b\"resp"),
      sL ("onse\":\"A\"\x7d\ndata: [DO"), sL ("NE]\n")])).1.dropLast,
        trimL l ≠ doneL) ∧
    feedAll [sL ("data: \x7b\"resp"), sL ("onse\":\"A\"\x7d\ndata: [DO"),
        sL ("NE]\n")] =
      feedAll [catL [sL ("data: \x7b\"resp"), sL ("onse\":\"A\"\x7d\ndata: [DO"),
        sL ("NE]\n")]] :=
  ⟨by decide, chunk_boundary_invariance _ (by decide)⟩

/-- C2: Dual-shape ordered extraction: a parsed payload yields its content
by trying first-choice delta content, then message content, then the flat
response field, stopping at the first match; the four payload shapes of
the claim give the stated deltas, and the two precedence payloads show the
order. -/
theorem dual_shape_extraction :
    lineDeltas (sL ("\x7b\"choices\":[\x7b\"delta\":\x7b\"content\":\"Hi\"\x7d\x7d]\x7d")) =
      [sL ("Hi")] ∧
    lineDeltas (sL ("\x7b\"message\":\x7b\"content\":\"Hi\"\x7d\x7d")) = [sL ("Hi")] ∧
    lineDeltas (sL ("\x7b\"response\":\"Hi\"\x7d")) = [sL ("Hi")] ∧
    lineDeltas (sL ("\x7b\"role\":\"assistant\"\x7d")) = [] ∧
    lineDeltas (sL ("\x7b\"response\":\"C\",\"message\":\x7b\"content\":\"B\"\x7d,\"choices\":[\x7b\"delta\":\x7b\"content\":\"A\"\x7d\x7d]\x7d")) =
      [sL ("A")] ∧
    lineDeltas (sL ("\x7b\"response\":\"C\",\"message\":\x7b\"content\":\"B\"\x7d\x7d")) =
      [sL ("B")] := by
  refine ⟨?_, ?_, ?_, ?_, ?_, ?_⟩ <;> decide

/-- C3 counterexample: a frame fed in a chunk after the chunk carrying
`data: [DONE]` is still processed and produces a delta, so the sentinel
does not halt processing across subsequently fed chunks. -/
theorem sentinel_not_final_counterexample :
    feedAll [sL ("data: [DONE]\n"), sL ("data: \x7b\"response\":\"Hi\"\x7d\n")] =
      ([], [sL ("Hi")]) := by decide

/-- C3 (amended): the sentinel line produces no delta and halts frame
processing only for the remainder of the current parse call: within one
call, no line after the first sentinel line is processed.  There is no
persistent terminated flag, so lines fed in later calls are processed
normally. -/
theorem sentinel_halts_current_call (ls1 ls2 : List (List Char)) (d : List Char)
    (h : ∀ l ∈ ls1, trimL l ≠ doneL) (hd : trimL d = doneL) :
    processLines (ls1 ++ d :: ls2) = processLines ls1 :=
  processLines_stop ls1 ls2 d h hd

theorem sentinel_halts_current_call_witness :
    (∀ l ∈ [sL ("data: \x7b\"response\":\"A\"\x7d")], trimL l ≠ doneL) ∧
    trimL (sL ("data: [DONE]")) = doneL ∧
    processLines ([sL ("data: \x7b\"response\":\"A\"\x7d")] ++
        sL ("data: [DONE]") :: [sL ("data: \x7b\"response\":\"B\"\x7d")]) =
      processLines [sL ("data: \x7b\"response\":\"A\"\x7d")] :=
  ⟨by decide, by decide,
    sentinel_halts_current_call _ _ _ (by decide) (by decide)⟩

/-- C4: Malformed-frame tolerance: inserting the line
`data: {not valid json` between two lines yields exactly the same parser
result (deltas and buffer) as the stream without it, and the malformed
line itself contributes no delta; the parse failure is absorbed by the
catch, modelled by the none branch of lineDeltas. -/
theorem malformed_frame_tolerance (l1 l2 : List Char)
    (h1 : '\n' ∉ l1) (h2 : '\n' ∉ l2) :
    parseChunk []
        (l1 ++ '\n' :: (sL ("data: \x7bnot valid json") ++ '\n' :: (l2 ++ ['\n']))) =
      parseChunk [] (l1 ++ '\n' :: (l2 ++ ['\n'])) ∧
    lineOut (sL ("data: \x7bnot valid json")) = [] := by
  have hb1 : trimL (sL ("data: \x7bnot valid json")) ≠ doneL := by decide
  have hb2 : lineOut (sL ("data: \x7bnot valid json")) = [] := by decide
  refine ⟨?_, hb2⟩
  show ((lineSplit _).2, processLines (lineSplit _).1) =
    ((lineSplit _).2, processLines (lineSplit _).1)
  simp only [List.nil_append]
  rw [lineSplit_line_cons l1 h1, lineSplit_line_cons _ (by decide),
    lineSplit_line_cons l2 h2, lineSplit_line_cons l1 h1,
    lineSplit_line_cons l2 h2]
  simp only [Prod.mk.injEq]
  refine ⟨trivial, ?_⟩
  by_cases hd : trimL l1 = doneL
  · rw [processLines_cons_done l1 _ hd, processLines_cons_done l1 _ hd]
  · rw [processLines_cons_ne l1 _ hd, processLines_cons_ne l1 _ hd,
      processLines_cons_ne _ _ hb1, hb2]
    simp

theorem malformed_frame_tolerance_witness :
    ('\n' ∉ sL ("data: \x7b\"response\":\"A\"\x7d")) ∧
    ('\n' ∉ sL ("data: \x7b\"response\":\"B\"\x7d")) ∧
    (parseChunk [] (sL ("data: \x7b\"response\":\"A\"\x7d") ++ '\n' ::
        (sL ("data: \x7bnot valid json") ++ '\n' ::
          (sL ("data: \x7b\"response\":\"B\"\x7d") ++ ['\n']))) =
      parseChunk [] (sL ("data: \x7b\"response\":\"A\"\x7d") ++ '\n' ::
        (sL ("data: \x7b\"response\":\"B\"\x7d") ++ ['\n'])) ∧
    lineOut (sL ("data: \x7bnot valid json")) = []) :=
  ⟨by decide, by decide,
    malformed_frame_tolerance _ _ (by decide) (by decide)⟩

/-- C5: Ordering: when the concatenation of the fed chunks consists of
three newline-terminated lines that each carry one content delta, the
parser emits exactly those three deltas in order, regardless of how the
stream was fragmented into chunks. -/
theorem ordering_of_deltas (l1 l2 l3 c1 c2 c3 : List Char)
    (chunks : List (List Char))
    (hn1 : '\n' ∉ l1) (hn2 : '\n' ∉ l2) (hn3 : '\n' ∉ l3)
    (hd1 : trimL l1 ≠ doneL) (hd2 : trimL l2 ≠ doneL) (hd3 : trimL l3 ≠ doneL)
    (ho1 : lineOut l1 = [c1]) (ho2 : lineOut l2 = [c2]) (ho3 : lineOut l3 = [c3])
    (hc : catL chunks = l1 ++ '\n' :: (l2 ++ '\n' :: (l3 ++ ['\n']))) :
    (feedAll chunks).2 = [c1, c2, c3] := by
  have hsplit : lineSplit (catL chunks) = ([l1, l2, l3], []) := by
    rw [hc, lineSplit_line_cons l1 hn1, lineSplit_line_cons l2 hn2,
      lineSplit_line_cons l3 hn3]
    rfl
  have hall : ∀ l ∈ (lineSplit (catL chunks)).1.dropLast, trimL l ≠ doneL := by
    rw [hsplit]
    show ∀ l ∈ [l1, l2], trimL l ≠ doneL
    intro l hl
    rcases List.mem_cons.mp hl with h | h2
    · rw [h]; exact hd1
    · rcases List.mem_cons.mp h2 with h | h3
      · rw [h]; exact hd2
      · simp at h3
  have e1 : ([] : List Char) ++ catL chunks = catL chunks := List.nil_append _
  have hfc := feed_closed chunks [] (by simp) (by rw [e1]; exact hall)
  rw [e1, hsplit] at hfc
  show (feed [] chunks).2 = _
  rw [hfc]
  show processLines [l1, l2, l3] = _
  rw [processLines_cons_ne l1 _ hd1, processLines_cons_ne l2 _ hd2,
    processLines_cons_ne l3 _ hd3, ho1, ho2, ho3]
  rfl

theorem ordering_of_deltas_witness :
    lineOut (sL ("data: \x7b\"response\":\"A\"\x7d")) = [sL ("A")] ∧
    lineOut (sL ("data: \x7b\"response\":\"B\"\x7d")) = [sL ("B")] ∧
    lineOut (sL ("data: \x7b\"response\":\"C\"\x7d")) = [sL ("C")] ∧
    catL [sL ("data: \x7b\"response\":\"A\"\x7d\nda"),
        sL ("ta: \x7b\"response\":\"B\"\x7d\ndata: \x7b\"resp"),
        sL ("onse\":\"C\"\x7d\n")] =
      sL ("data: \x7b\"response\":\"A\"\x7d") ++ '\n' ::
        (sL ("data: \x7b\"response\":\"B\"\x7d") ++ '\n' ::
          (sL ("data: \x7b\"response\":\"C\"\x7d") ++ ['\n'])) ∧
    (feedAll [sL ("data: \x7b\"response\":\"A\"\x7d\nda"),
        sL ("ta: \x7b\"response\":\"B\"\x7d\ndata: \x7b\"resp"),
        sL ("onse\":\"C\"\x7d\n")]).2 = [sL ("A"), sL ("B"), sL ("C")] :=
  ⟨by decide, by decide, by decide, by decide,
    ordering_of_deltas (sL ("data: \x7b\"response\":\"A\"\x7d"))
      (sL ("data: \x7b\"response\":\"B\"\x7d"))
      (sL ("data: \x7b\"response\":\"C\"\x7d"))
      (sL ("A")) (sL ("B")) (sL ("C"))
      [sL ("data: \x7b\"response\":\"A\"\x7d\nda"),
        sL ("ta: \x7b\"response\":\"B\"\x7d\ndata: \x7b\"resp"),
        sL ("onse\":\"C\"\x7d\n")]
      (by decide) (by decide) (by decide) (by decide) (by decide) (by decide)
      (by decide) (by decide) (by decide) (by decide)⟩

/-- C6 counterexample: in a single parse call whose complete lines are the
sentinel followed by a data frame, the later complete line is neither
dispatched (its dispatch would emit a delta, yet the call emits none) nor
retained in the buffer, refuting that every complete line is dispatched
before the call returns. -/
theorem line_dispatch_counterexample :
    parseChunk [] (sL ("data: [DONE]\ndata: \x7b\"response\":\"Hi\"\x7d\n")) =
      ([], []) ∧
    (lineSplit (sL ("data: [DONE]\ndata: \x7b\"response\":\"Hi\"\x7d\n"))).1 =
      [sL ("data: [DONE]"), sL ("data: \x7b\"response\":\"Hi\"\x7d")] ∧
    lineOut (sL ("data: \x7b\"response\":\"Hi\"\x7d")) = [sL ("Hi")] := by
  refine ⟨?_, ?_, ?_⟩ <;> decide

/-- C6 (amended): on every parse call the decoded text is appended to the
carried buffer and split on newline; the final split segment is retained
as the new buffer, which never contains a newline; and provided no
complete line of the call is the terminal sentinel, every complete line is
dispatched before the call returns (the deltas are the concatenation of
the per-line outputs in order).  Lines following a sentinel within the
same call are dropped, not dispatched. -/
theorem line_buffer_invariant (buf chunk : List Char) :
    '\n' ∉ (parseChunk buf chunk).1 ∧
    ((∀ l ∈ (lineSplit (buf ++ chunk)).1, trimL l ≠ doneL) →
      (parseChunk buf chunk).2 =
        catL ((lineSplit (buf ++ chunk)).1.map lineOut)) := by
  constructor
  · show '\n' ∉ (lineSplit (buf ++ chunk)).2
    exact lineSplit_buf_noNl _
  · intro h
    show processLines (lineSplit (buf ++ chunk)).1 = _
    exact processLines_eq_catL _ h

theorem line_buffer_invariant_witness :
    '\n' ∉ (parseChunk (sL ("data: \x7b\"res")) (sL ("ponse\":\"A\"\x7d\nda"))).1 ∧
    (parseChunk (sL ("data: \x7b\"res")) (sL ("ponse\":\"A\"\x7d\nda"))).2 =
      catL ((lineSplit (sL ("data: \x7b\"res") ++
        sL ("ponse\":\"A\"\x7d\nda"))).1.map lineOut) :=
  ⟨(line_buffer_invariant _ _).1, (line_buffer_invariant _ _).2 (by decide)⟩

/-- C7 counterexample: a bare newline-delimited JSON object (no SSE
framing) produces no delta at all, even though the same text as a payload
extracts content, refuting that the pipeline emits a delta for each bare
NDJSON object. -/
theorem ndjson_bare_counterexample :
    feedAll [sL ("\x7b\"message\":\x7b\"content\":\"Hi\"\x7d\x7d\n")] = ([], []) ∧
    lineDeltas (sL ("\x7b\"message\":\x7b\"content\":\"Hi\"\x7d\x7d")) = [sL ("Hi")] := by
  refine ⟨?_, ?_⟩ <;> decide

/-- C7 (amended): bare newline-delimited JSON objects are skipped as
unrecognized lines and produce no deltas (any line whose trimmed form does
not start with the data prefix is ignored); the same objects wrapped in
SSE data lines produce their content deltas in order. -/
theorem ndjson_handling :
    feedAll [sL ("\x7b\"message\":\x7b\"content\":\"A\"\x7d\x7d\n\x7b\"message\":\x7b\"content\":\"B\"\x7d\x7d\n")] =
      ([], []) ∧
    feedAll [sL ("data: \x7b\"message\":\x7b\"content\":\"A\"\x7d\x7d\ndata: \x7b\"message\":\x7b\"content\":\"B\"\x7d\x7d\n")] =
      ([], [sL ("A"), sL ("B")]) ∧
    (∀ l : List Char, beginsWith dataPfx (trimL l) = false → lineOut l = []) := by
  refine ⟨by decide, by decide, ?_⟩
  intro l hb
  exact lineOut_no_data_pfx l hb

theorem ndjson_handling_witness :
    beginsWith dataPfx (trimL (sL ("\x7b\"message\":\x7b\"content\":\"A\"\x7d\x7d"))) =
      false ∧
    lineOut (sL ("\x7b\"message\":\x7b\"content\":\"A\"\x7d\x7d")) = [] :=
  ⟨by decide, ndjson_handling.2.2 _ (by decide)⟩

/-- C8: Pre-stream failure surface: whenever the upstream response is
non-success, the POST handler returns a JSON object with string fields
error and details at HTTP status 500, and never returns a stream. -/
theorem upstream_rejection_error (p : Provider) (s : Bool)
    (u : UpstreamResponse) (h : u.ok = false) :
    (∃ e d : List Char, handlePOST p s u =
      RouteResult.jsonRes (Json.jobj
        [(sL ("error"), Json.jstr e), (sL ("details"), Json.jstr d)]) 500) ∧
    ∀ ds, handlePOST p s u ≠ RouteResult.streamed ds := by
  have hh : handlePOST p s u = errorResult ((match p with
      | Provider.ollama => sL ("Ollama API error: ")
      | Provider.cloudflare => sL ("Cloudflare API error: ")) ++ u.bodyText) := by
    simp [handlePOST, h]
  constructor
  · exact ⟨_, _, by rw [hh]; rfl⟩
  · intro ds hcon
    rw [hh] at hcon
    exact RouteResult.noConfusion hcon

theorem upstream_rejection_error_witness :
    (UpstreamResponse.mk false (sL ("boom")) [] none).ok = false ∧
    ((∃ e d : List Char, handlePOST Provider.ollama true
        (UpstreamResponse.mk false (sL ("boom")) [] none) =
      RouteResult.jsonRes (Json.jobj
        [(sL ("error"), Json.jstr e), (sL ("details"), Json.jstr d)]) 500) ∧
    ∀ ds, handlePOST Provider.ollama true
        (UpstreamResponse.mk false (sL ("boom")) [] none) ≠
      RouteResult.streamed ds) :=
  ⟨rfl, upstream_rejection_error Provider.ollama true _ rfl⟩

/-- C9 counterexample: the payload null parses successfully, yet the
content-extraction expression throws (reading choices of null is a
TypeError), modelled by the error result; the surrounding catch absorbs it
so the line still contributes no delta. -/
theorem null_payload_throws_counterexample :
    jsonParse (sL ("null")) = some Json.null ∧
    contentOf Json.null = Except.error () ∧
    lineDeltas (sL ("null")) = [] :=
  ⟨rfl, rfl, rfl⟩

/-- C9 (amended): for every successfully parsed payload other than the
JSON value null, the content-extraction expression evaluates without
throwing, and any payload line produces at most one delta; the null
payload throws a TypeError that the catch absorbs, yielding no delta. -/
theorem extractor_total_except_null (j : Json) (p : List Char) :
    (j ≠ Json.null → ∃ c, contentOf j = Except.ok c) ∧
    (lineDeltas p).length ≤ 1 := by
  constructor
  · intro h
    cases j with
    | null => exact absurd rfl h
    | jbool b => exact ⟨_, rfl⟩
    | jnum t => exact ⟨_, rfl⟩
    | jstr s => exact ⟨_, rfl⟩
    | jarr xs => exact ⟨_, rfl⟩
    | jobj fs => exact ⟨_, rfl⟩
  · cases hp : jsonParse p with
    | none => simp [lineDeltas, hp]
    | some data =>
      cases hc : contentOf data with
      | error e => simp [lineDeltas, hp, hc]
      | ok content =>
        by_cases ht : truthy content = true <;> simp [lineDeltas, hp, hc, ht]

theorem extractor_total_except_null_witness :
    (∃ c, contentOf (Json.jobj []) = Except.ok c) ∧
    (lineDeltas (sL ("42"))).length ≤ 1 :=
  ⟨(extractor_total_except_null (Json.jobj []) (sL ("42"))).1
      (fun h => Json.noConfusion h),
    (extractor_total_except_null (Json.jobj []) (sL ("42"))).2⟩

/-- C10: Strict data-prefix match: a line whose trimmed form does not
start with the six characters of the data prefix produces no delta, so
`data:` without a trailing space is treated as unrecognized; in particular
the no-space line of the claim yields no delta. -/
theorem strict_data_prefix_match (l : List Char)
    (h : beginsWith dataPfx (trimL l) = false) :
    lineOut l = [] ∧
    feedAll [sL ("data:\x7b\"response\":\"Hi\"\x7d\n")] = ([], []) :=
  ⟨lineOut_no_data_pfx l h, by decide⟩

theorem strict_data_prefix_match_witness :
    beginsWith dataPfx (trimL (sL ("data:\x7b\"response\":\"Hi\"\x7d"))) = false ∧
    (lineOut (sL ("data:\x7b\"response\":\"Hi\"\x7d")) = [] ∧
      feedAll [sL ("data:\x7b\"response\":\"Hi\"\x7d\n")] = ([], [])) :=
  ⟨by decide, strict_data_prefix_match _ (by decide)⟩

end StreamCore
